import Mathlib

/-!
Verification of the F1 prediction pipeline (2025_f1_predictions).

Shallow embedding of the pure core of the repository:
`model/utils.py` (reference tables), `model/feature_engineering.py`
(driver-name normalization, feature-matrix assembly with imputation,
weather-conditioned qualifying-time adjustment), `model/weather.py`
(forecast resolution with fixed fallback), `model/predict.py`
(schema validation, report formatting, file persistence), and the
relevant pipeline steps of `run_prediction.py`.

Conventions: Python floats are embedded as rationals (ℚ); pandas
DataFrames as lists of named, typed columns; Python dicts as
association lists with insert-overwrites semantics; fallible code as
`Except`; the file system, for the persistence step, as an
association list from path to written report.
-/

/-! ## Reference tables (`model/utils.py`) -/

/-- A Python `dict` as an association list in insertion order; lookup is
first match (keys are unique by construction of `dictInsert`). -/
def dictGet (d : List (String × String)) (k : String) : Option String :=
  (d.find? (fun kv => kv.1 == k)).map (·.2)

/-- Python dict insertion: an existing key has its value overwritten in
place, a new key is appended. -/
def dictInsert (d : List (String × String)) (k v : String) : List (String × String) :=
  if d.any (fun kv => kv.1 == k) then
    d.map (fun kv => if kv.1 == k then (k, v) else kv)
  else
    d ++ [(k, v)]

/-- `DRIVER_MAPPING` of `model/utils.py`: driver full name to 3-letter
code, in source order. -/
def DRIVER_MAPPING : List (String × String) :=
  [("Lando Norris", "NOR"),
   ("Oscar Piastri", "PIA"),
   ("Max Verstappen", "VER"),
   ("George Russell", "RUS"),
   ("Yuki Tsunoda", "TSU"),
   ("Alexander Albon", "ALB"),
   ("Charles Leclerc", "LEC"),
   ("Lewis Hamilton", "HAM"),
   ("Pierre Gasly", "GAS"),
   ("Carlos Sainz", "SAI"),
   ("Carlos Sainz Jr.", "SAI"),
   ("Lance Stroll", "STR"),
   ("Fernando Alonso", "ALO"),
   ("Esteban Ocon", "OCO"),
   ("Nico Hülkenberg", "HUL"),
   ("Isack Hadjar", "HAD"),
   ("Andrea Kimi Antonelli", "ANT"),
   ("Oliver Bearman", "BEA"),
   ("Jack Doohan", "DOO"),
   ("Gabriel Bortoleto", "BOR"),
   ("Liam Lawson", "LAW")]

/-- `DRIVER_CODE_TO_NAME = {v: k for k, v in DRIVER_MAPPING.items()}`:
the reverse dict built by the comprehension, a later duplicate value
(code) overwriting the name stored for that code earlier. -/
def DRIVER_CODE_TO_NAME : List (String × String) :=
  DRIVER_MAPPING.foldl (fun d kv => dictInsert d kv.2 kv.1) []

/-- `get_driver_code` of `model/utils.py`: `DRIVER_MAPPING.get(name)`. -/
def get_driver_code (driver_name : String) : Option String :=
  dictGet DRIVER_MAPPING driver_name

/-- `get_driver_name` of `model/utils.py`: `DRIVER_CODE_TO_NAME.get(code)`. -/
def get_driver_name (driver_code : String) : Option String :=
  dictGet DRIVER_CODE_TO_NAME driver_code

/-- `DRIVER_TO_TEAM` of `model/utils.py`. -/
def DRIVER_TO_TEAM : List (String × String) :=
  [("VER", "Red Bull"), ("NOR", "McLaren"), ("PIA", "McLaren"),
   ("LEC", "Ferrari"), ("RUS", "Mercedes"), ("HAM", "Mercedes"),
   ("GAS", "Alpine"), ("ALO", "Aston Martin"), ("TSU", "Racing Bulls"),
   ("SAI", "Ferrari"), ("HUL", "Kick Sauber"), ("OCO", "Alpine"),
   ("STR", "Aston Martin"), ("ALB", "Williams"), ("BEA", "Ferrari"),
   ("DOO", "Alpine"), ("BOR", "Racing Bulls"), ("LAW", "Racing Bulls"),
   ("HAD", "Red Bull"), ("ANT", "Mercedes")]

/-- `get_team` of `model/utils.py`: `DRIVER_TO_TEAM.get(code)`. -/
def get_team (driver_code : String) : Option String :=
  dictGet DRIVER_TO_TEAM driver_code

/-! ## Weather-conditioned adjustment (`model/feature_engineering.py`) -/

/-- `adjust_qualifying_time_for_weather` of
`model/feature_engineering.py` (lines 133-153): multiply the qualifying
time by the wet-performance factor when the rain probability reaches the
threshold (default 0.75, non-strict comparison), otherwise return it
unchanged. -/
def adjust_qualifying_time_for_weather (qualifying_time rain_probability
    wet_performance_factor : ℚ) (threshold : ℚ := 0.75) : ℚ :=
  if rain_probability ≥ threshold then
    qualifying_time * wet_performance_factor
  else
    qualifying_time

/-! ## Theorems: C1 and C10 -/

/-- C1: for every qualifying time q, rain probability p and
wet-performance factor f, `adjust_qualifying_time_for_weather q p f`
returns `q * f` when `p ≥ 0.75` (the boundary `p = 0.75` adjusts) and
returns `q` unchanged when `p < 0.75`. -/
theorem adjust_qualifying_time_threshold (q p f : ℚ) :
    (p ≥ 0.75 → adjust_qualifying_time_for_weather q p f = q * f) ∧
    (p < 0.75 → adjust_qualifying_time_for_weather q p f = q) := by
  constructor
  · intro hp
    simp [adjust_qualifying_time_for_weather, hp]
  · intro hp
    simp [adjust_qualifying_time_for_weather, not_le.mpr hp]

/-- Witness for C1 at the boundary `p = 0.75` and below it. -/
theorem adjust_qualifying_time_threshold_witness :
    adjust_qualifying_time_for_weather 90 0.75 (1/2) = 90 * (1/2) ∧
    adjust_qualifying_time_for_weather 90 (1/2) (1/2) = 90 :=
  ⟨(adjust_qualifying_time_threshold 90 0.75 (1/2)).1 (by norm_num),
   (adjust_qualifying_time_threshold 90 (1/2) (1/2)).2 (by norm_num)⟩

/-- C10: code→name→code round-trips to the identity on every code in the
reverse table, while name→code→name is not the identity for every mapped
name ("Carlos Sainz" and "Carlos Sainz Jr." share the code "SAI"). -/
theorem driver_code_name_roundtrip :
    (∀ c n, get_driver_name c = some n → get_driver_code n = some c) ∧
    (∃ nm c, get_driver_code nm = some c ∧ get_driver_name c ≠ some nm) := by
  constructor
  · intro c n h
    have hmem : (c, n) ∈ DRIVER_CODE_TO_NAME := by
      have h' : DRIVER_CODE_TO_NAME.find? (fun kv => kv.1 == c)
          = some (c, n) := by
        rcases hf : DRIVER_CODE_TO_NAME.find? (fun kv => kv.1 == c) with _ | kv
        · simp [get_driver_name, dictGet, hf] at h
        · have hk : kv.1 = c := by
            have := List.find?_some hf
            simpa using this
          have hv : kv.2 = n := by
            simp [get_driver_name, dictGet, hf] at h
            exact h
          cases kv
          simp_all
      exact List.mem_of_find?_eq_some h'
    revert hmem
    have : ∀ kv ∈ DRIVER_CODE_TO_NAME, get_driver_code kv.2 = some kv.1 := by
      decide
    intro hmem
    exact this (c, n) hmem
  · exact ⟨"Carlos Sainz", "SAI", by decide, by decide⟩

/-- Witness for C10 at the concrete code "VER". -/
theorem driver_code_name_roundtrip_witness :
    get_driver_code "Max Verstappen" = some "VER" :=
  driver_code_name_roundtrip.1 "VER" "Max Verstappen" (by decide)

/-! ## Driver-name normalization (`model/feature_engineering.py`) -/

/-- The regex `^[A-Z]{3}$` of `normalize_driver_names`: exactly three
uppercase ASCII letters. -/
def isThreeUpperCode (s : String) : Bool :=
  s.length == 3 && s.toList.all (fun ch => 'A' ≤ ch && ch ≤ 'Z')

/-- A row of the qualifying DataFrame built by
`prepare_qualifying_data`: columns `Driver` and `QualifyingTime (s)`. -/
structure QualifyingRow where
  driver : String
  qualifyingTime : ℚ
deriving DecidableEq, Repr

/-- A qualifying row after `normalize_driver_names`: the added
`DriverCode` column. -/
structure NormalizedRow where
  driver : String
  qualifyingTime : ℚ
  driverCode : String
deriving DecidableEq, Repr

/-- `normalize_driver_names` of `model/feature_engineering.py`
(lines 30-51): if every `Driver` value matches `^[A-Z]{3}$`, copy it to
`DriverCode`; otherwise map names through `get_driver_code` and fill
failed mappings with the raw `Driver` value. -/
def normalize_driver_names (rows : List QualifyingRow) : List NormalizedRow :=
  if rows.all (fun r => isThreeUpperCode r.driver) then
    rows.map (fun r => ⟨r.driver, r.qualifyingTime, r.driver⟩)
  else
    rows.map (fun r =>
      ⟨r.driver, r.qualifyingTime, (get_driver_code r.driver).getD r.driver⟩)

/-- Every code in `DRIVER_MAPPING` is a non-empty string. -/
theorem driver_mapping_codes_nonempty :
    ∀ kv ∈ DRIVER_MAPPING, kv.2 ≠ "" := by decide

/-- A successful `get_driver_code` lookup returns a value stored in
`DRIVER_MAPPING`. -/
theorem get_driver_code_mem {nm c : String} (h : get_driver_code nm = some c) :
    ∃ kv ∈ DRIVER_MAPPING, kv.2 = c := by
  rcases hf : DRIVER_MAPPING.find? (fun kv => kv.1 == nm) with _ | kv
  · simp [get_driver_code, dictGet, hf] at h
  · refine ⟨kv, List.mem_of_find?_eq_some hf, ?_⟩
    simp [get_driver_code, dictGet, hf] at h
    exact h

/-- C8: `normalize_driver_names` is total — it keeps every row and,
whenever every input `Driver` is a non-empty string, every output row
carries a non-empty `DriverCode` (the driver value itself, a mapped
code, or the raw value as fallback). -/
theorem normalize_driver_names_total (rows : List QualifyingRow)
    (h : ∀ r ∈ rows, r.driver ≠ "") :
    (normalize_driver_names rows).length = rows.length ∧
    ∀ nr ∈ normalize_driver_names rows, nr.driverCode ≠ "" := by
  unfold normalize_driver_names
  split
  · refine ⟨List.length_map _ _, ?_⟩
    intro nr hnr
    rcases List.mem_map.mp hnr with ⟨r, hr, rfl⟩
    exact h r hr
  · refine ⟨List.length_map _ _, ?_⟩
    intro nr hnr
    rcases List.mem_map.mp hnr with ⟨r, hr, rfl⟩
    rcases hc : get_driver_code r.driver with _ | c
    · simpa [hc] using h r hr
    · rcases get_driver_code_mem hc with ⟨kv, hkv, hv⟩
      simp only [hc, Option.getD_some]
      exact hv ▸ driver_mapping_codes_nonempty kv hkv

/-- Witness for C8 on a mix of an existing code, a mapped full name and
an unrecognized string. -/
theorem normalize_driver_names_total_witness :
    (normalize_driver_names
        [⟨"VER", 90⟩, ⟨"Lewis Hamilton", 91⟩, ⟨"Some Rookie", 92⟩]).length
      = ([⟨"VER", 90⟩, ⟨"Lewis Hamilton", 91⟩,
          ⟨"Some Rookie", 92⟩] : List QualifyingRow).length ∧
    (⟨"Lewis Hamilton", 91, "HAM"⟩ : NormalizedRow).driverCode ≠ "" :=
  ⟨(normalize_driver_names_total
      [⟨"VER", 90⟩, ⟨"Lewis Hamilton", 91⟩, ⟨"Some Rookie", 92⟩]
      (by decide)).1,
   (normalize_driver_names_total
      [⟨"VER", 90⟩, ⟨"Lewis Hamilton", 91⟩, ⟨"Some Rookie", 92⟩]
      (by decide)).2 ⟨"Lewis Hamilton", 91, "HAM"⟩ (by decide)⟩

/-! ## Weather resolver (`model/weather.py`) -/

/-- One entry of the `list` field of the OpenWeatherMap response:
`dt_txt` timestamp plus the optional `pop` and `main.temp` fields that
`get_weather_forecast` reads with defaults 0.0 and 20.0. -/
structure ForecastBucket where
  dt_txt : String
  pop : Option ℚ
  temp : Option ℚ
deriving DecidableEq, Repr

/-- Outcome of the remote call in `get_weather_forecast`: `failure`
models a raised `RequestException` (including timeout) or any error
while processing the response — both caught by the try/except
blocks of the source — and `ok` a parsed JSON body with its forecast
buckets. -/
inductive ApiOutcome where
  | failure
  | ok (buckets : List ForecastBucket)
deriving DecidableEq

/-- The credential test of `model/weather.py` line 41:
`if not api_key or api_key == "YOURAPIKEY"` (a missing or empty key is
falsy). -/
def isMissingApiKey (api_key : Option String) : Bool :=
  match api_key with
  | none => true
  | some k => k == "" || k == "YOURAPIKEY"

/-- `get_weather_forecast` of `model/weather.py` (lines 19-74), with the
remote interaction abstracted into the `response` argument: a missing or
placeholder key, a failed call, or a response with no bucket whose
`dt_txt` equals `forecast_time` exactly all yield the fixed fallback
`(0.0, 20.0)`; a matching bucket yields its `pop` and `main.temp`
(defaulting to 0.0 and 20.0). -/
def get_weather_forecast (api_key : Option String) (forecast_time : String)
    (response : ApiOutcome) : ℚ × ℚ :=
  if isMissingApiKey api_key then (0, 20)
  else
    match response with
    | .failure => (0, 20)
    | .ok buckets =>
      match buckets.find? (fun b => b.dt_txt == forecast_time) with
      | some b => (b.pop.getD 0, b.temp.getD 20)
      | none => (0, 20)

/-- C7: `get_weather_forecast` returns exactly (0.0, 20.0) when the key
is absent, empty or the placeholder, when the remote call fails, and
when no bucket timestamp equals the requested time exactly; in every
other case the value comes from a bucket matched by exact timestamp
string equality. -/
theorem get_weather_forecast_fallback (key : Option String) (t : String)
    (resp : ApiOutcome) :
    (isMissingApiKey key = true → get_weather_forecast key t resp = (0, 20)) ∧
    get_weather_forecast none t resp = (0, 20) ∧
    get_weather_forecast (some "YOURAPIKEY") t resp = (0, 20) ∧
    (resp = .failure → get_weather_forecast key t resp = (0, 20)) ∧
    (∀ l, resp = .ok l → (∀ b ∈ l, b.dt_txt ≠ t) →
      get_weather_forecast key t resp = (0, 20)) ∧
    (∀ l, resp = .ok l →
      get_weather_forecast key t resp = (0, 20) ∨
      ∃ b ∈ l, b.dt_txt = t ∧
        get_weather_forecast key t resp = (b.pop.getD 0, b.temp.getD 20)) := by
  refine ⟨fun hk => by simp [get_weather_forecast, hk], ?_, ?_, ?_, ?_, ?_⟩
  · simp [get_weather_forecast, isMissingApiKey]
  · simp [get_weather_forecast, isMissingApiKey]
  · rintro rfl
    simp [get_weather_forecast]
  · rintro l rfl hnone
    have hf : l.find? (fun b => b.dt_txt == t) = none := by
      rw [List.find?_eq_none]
      intro b hb
      simpa using hnone b hb
    simp [get_weather_forecast, hf]
  · rintro l rfl
    by_cases hk : isMissingApiKey key
    · exact Or.inl (by simp [get_weather_forecast, hk])
    · rcases hf : l.find? (fun b => b.dt_txt == t) with _ | b
      · exact Or.inl (by simp [get_weather_forecast, hk, hf])
      · refine Or.inr ⟨b, List.mem_of_find?_eq_some hf, ?_, ?_⟩
        · simpa using List.find?_some hf
        · simp [get_weather_forecast, hk, hf]

/-- Witness for C7: a configured key with a response whose only bucket
has a different timestamp falls back to (0.0, 20.0). -/
theorem get_weather_forecast_fallback_witness :
    get_weather_forecast (some "realkey") "2025-01-01 12:00:00"
        (.ok [ForecastBucket.mk "2025-01-01 15:00:00" (some (1/2)) (some 25)])
      = (0, 20) :=
  ((get_weather_forecast_fallback (some "realkey") "2025-01-01 12:00:00"
      (.ok [ForecastBucket.mk "2025-01-01 15:00:00" (some (1/2))
        (some 25)])).2.2.2.2.1)
    [ForecastBucket.mk "2025-01-01 15:00:00" (some (1/2)) (some 25)]
    rfl (by decide)

/-! ## Feature matrix (`create_feature_matrix`, `model/feature_engineering.py`) -/

/-- A value stored in a pandas `object`-dtype column: a string or a
number (the number appears when `fillna(0)` writes `0` into such a
column). -/
inductive PCell where
  | onum (q : ℚ)
  | ostr (s : String)
deriving DecidableEq, Repr

/-- The data of one pandas column, the constructor playing the role of
the dtype: a `float64`/`int64` column holds numbers or NaN (`none`), an
`object` column holds arbitrary values or NaN. -/
inductive ColData where
  | float (vals : List (Option ℚ))
  | obj (vals : List (Option PCell))
deriving DecidableEq, Repr

/-- A named DataFrame column. -/
structure Column where
  name : String
  data : ColData
deriving DecidableEq, Repr

/-- A pandas DataFrame as its list of columns, in column order. -/
abbrev Frame := List Column

/-- The non-NaN values of a numeric column, in row order. -/
def presentVals (vs : List (Option ℚ)) : List ℚ :=
  vs.filterMap id

/-- `pandas.Series.median` on the non-NaN values: the middle element of
the sorted values, or the mean of the two middle elements for an even
count. -/
def median (l : List ℚ) : ℚ :=
  let s := List.insertionSort (· ≤ ·) l
  if s.length % 2 = 1 then s.getD (s.length / 2) 0
  else (s.getD (s.length / 2 - 1) 0 + s.getD (s.length / 2) 0) / 2

/-- The imputation loop body of `create_feature_matrix` (lines 123-128)
for one column: when the column has any NaN, a numeric (`float64`/
`int64`) column is filled with its median over non-NaN values — or 0 if
`notna().any()` is false — and any other column is filled with 0. -/
def fillColData : ColData → ColData
  | .float vs =>
    if vs.any (·.isNone) then
      let fv : ℚ := if vs.any (·.isSome) then median (presentVals vs) else 0
      .float (vs.map (fun v => some (v.getD fv)))
    else .float vs
  | .obj vs =>
    if vs.any (·.isNone) then
      .obj (vs.map (fun v => some (v.getD (.onum 0))))
    else .obj vs

/-- Imputation applied to a named column (the name is untouched). -/
def fillColumn (c : Column) : Column :=
  ⟨c.name, fillColData c.data⟩

/-- `create_feature_matrix` of `model/feature_engineering.py`
(lines 105-130): select the declared features present in the frame, in
declared order (`available_features` then `df[available_features]`),
and run the imputation loop over the selected columns. -/
def create_feature_matrix (df : Frame) (feature_list : List String) : Frame :=
  (feature_list.filterMap (fun f => df.find? (fun c => c.name == f))).map
    fillColumn

/-- The column labels of a frame, in order. -/
def colNames (df : Frame) : List String :=
  df.map (·.name)

/-- The data of a column has no NaN left. -/
def noMissingData : ColData → Bool
  | .float vs => vs.all (·.isSome)
  | .obj vs => vs.all (·.isSome)

theorem map_eq_self_of {α : Type} {l : List α} {f : α → α}
    (h : ∀ x ∈ l, f x = x) : l.map f = l := by
  induction l with
  | nil => rfl
  | cons a l ih =>
    simp only [List.map_cons, h a (List.mem_cons_self a l)]
    rw [ih (fun x hx => h x (List.mem_cons_of_mem a hx))]

/-- `notna().any()` agrees with non-emptiness of the present values. -/
theorem any_isSome_iff_presentVals_ne_nil (vs : List (Option ℚ)) :
    vs.any (·.isSome) = true ↔ presentVals vs ≠ [] := by
  rw [List.any_eq_true]
  constructor
  · rintro ⟨v, hv, hs⟩ hnil
    rcases Option.isSome_iff_exists.mp hs with ⟨q, rfl⟩
    have : (some q : Option ℚ) = none := by
      have := List.filterMap_eq_nil_iff.mp hnil (some q) hv
      simp at this
    simp at this
  · intro hne
    rcases List.exists_mem_of_ne_nil _ hne with ⟨q, hq⟩
    rcases List.mem_filterMap.mp hq with ⟨v, hv, hid⟩
    exact ⟨v, hv, by simp_all⟩

/-- The float branch of the imputation loop, written as one per-cell
map: NaN becomes the median of the present values, or 0 when no value
is present; other cells are unchanged. -/
theorem fillColData_float_eq (vs : List (Option ℚ)) :
    fillColData (.float vs) =
      .float (vs.map (fun v => some (v.getD
        (if presentVals vs = [] then 0 else median (presentVals vs))))) := by
  rcases hna : vs.any (·.isNone) with _ | _
  · have hall : ∀ v ∈ vs, v.isSome := by
      intro v hv
      rcases v with _ | q
      · have : vs.any (·.isNone) = true := List.any_eq_true.mpr ⟨none, hv, rfl⟩
        rw [hna] at this
        exact absurd this (by simp)
      · rfl
    simp only [fillColData, hna, Bool.false_eq_true, if_false]
    congr 1
    refine (map_eq_self_of ?_).symm
    intro v hv
    rcases Option.isSome_iff_exists.mp (hall v hv) with ⟨q, rfl⟩
    rfl
  · simp only [fillColData, hna, if_true]
    rcases hp : presentVals vs with _ | ⟨q, rest⟩
    · have hs : vs.any (·.isSome) = false := by
        rcases h : vs.any (·.isSome) with _ | _
        · rfl
        · exact absurd hp ((any_isSome_iff_presentVals_ne_nil vs).mp h)
      simp [hs]
    · have hs : vs.any (·.isSome) = true :=
        (any_isSome_iff_presentVals_ne_nil vs).mpr (by simp [hp])
      simp [hs, hp]

/-- The object branch of the imputation loop as one per-cell map: NaN
becomes the number 0, other cells are unchanged. -/
theorem fillColData_obj_eq (vs : List (Option PCell)) :
    fillColData (.obj vs) =
      .obj (vs.map (fun v => some (v.getD (.onum 0)))) := by
  rcases hna : vs.any (·.isNone) with _ | _
  · have hall : ∀ v ∈ vs, v.isSome := by
      intro v hv
      rcases v with _ | q
      · have : vs.any (·.isNone) = true := List.any_eq_true.mpr ⟨none, hv, rfl⟩
        rw [hna] at this
        exact absurd this (by simp)
      · rfl
    simp only [fillColData, hna, Bool.false_eq_true, if_false]
    congr 1
    refine (map_eq_self_of ?_).symm
    intro v hv
    rcases Option.isSome_iff_exists.mp (hall v hv) with ⟨q, rfl⟩
    rfl
  · simp only [fillColData, hna, if_true]

/-- After imputation a column has no NaN left. -/
theorem noMissingData_fillColData (d : ColData) :
    noMissingData (fillColData d) = true := by
  cases d with
  | float vs =>
    rw [fillColData_float_eq]
    simp [noMissingData]
  | obj vs =>
    rw [fillColData_obj_eq]
    simp [noMissingData]

/-- Imputation leaves a NaN-free column unchanged. -/
theorem fillColData_of_noMissing {d : ColData}
    (h : noMissingData d = true) : fillColData d = d := by
  cases d with
  | float vs =>
    have hna : vs.any (·.isNone) = false := by
      simp only [noMissingData, List.all_eq_true] at h
      simp only [List.any_eq_false]
      intro v hv
      rcases Option.isSome_iff_exists.mp (h v hv) with ⟨q, rfl⟩
      simp
    simp [fillColData, hna]
  | obj vs =>
    have hna : vs.any (·.isNone) = false := by
      simp only [noMissingData, List.all_eq_true] at h
      simp only [List.any_eq_false]
      intro v hv
      rcases Option.isSome_iff_exists.mp (h v hv) with ⟨q, rfl⟩
      simp
    simp [fillColData, hna]

/-- Imputation is idempotent on one column. -/
theorem fillColData_idem (d : ColData) :
    fillColData (fillColData d) = fillColData d :=
  fillColData_of_noMissing (noMissingData_fillColData d)

/-- Every column of `create_feature_matrix df fl` is the imputation of a
column found in `df` under its own name. -/
theorem create_feature_matrix_mem {df : Frame} {fl : List String} {c : Column}
    (hc : c ∈ create_feature_matrix df fl) :
    ∃ c₀, df.find? (fun x => x.name == c.name) = some c₀ ∧ c = fillColumn c₀ := by
  rcases List.mem_map.mp hc with ⟨c₁, hmem, rfl⟩
  rcases List.mem_filterMap.mp hmem with ⟨f, _, hfind⟩
  have hname : c₁.name = f := by simpa using List.find?_some hfind
  refine ⟨c₁, ?_, rfl⟩
  show df.find? (fun x => x.name == c₁.name) = some c₁
  rw [hname]
  exact hfind

/-- Looking a declared feature up in the assembled matrix gives the
imputation of its lookup in the source frame. -/
theorem create_feature_matrix_find? (df : Frame) (fl : List String)
    (g : String) (hg : g ∈ fl) :
    (create_feature_matrix df fl).find? (fun c => c.name == g)
      = (df.find? (fun c => c.name == g)).map fillColumn := by
  induction fl with
  | nil => cases hg
  | cons f rest ih =>
    cases hdf : df.find? (fun c => c.name == f) with
    | some c =>
      have hcn : c.name = f := by simpa using List.find?_some hdf
      have hexp : create_feature_matrix df (f :: rest)
          = fillColumn c :: create_feature_matrix df rest := by
        simp only [create_feature_matrix, List.filterMap_cons, hdf,
          List.map_cons]
      rw [hexp]
      by_cases hgf : g = f
      · subst hgf
        rw [List.find?_cons_of_pos]
        · rw [hdf]
          rfl
        · show ((fillColumn c).name == g) = true
          simp [fillColumn, hcn]
      · have hgrest : g ∈ rest := by
          rcases List.mem_cons.mp hg with h | h
          · exact absurd h hgf
          · exact h
        rw [List.find?_cons_of_neg]
        · exact ih hgrest
        · show ¬ ((fillColumn c).name == g) = true
          simp only [fillColumn, hcn]
          simp
          intro hh
          exact hgf hh.symm
    | none =>
      have hexp : create_feature_matrix df (f :: rest)
          = create_feature_matrix df rest := by
        simp only [create_feature_matrix, List.filterMap_cons, hdf]
      rw [hexp]
      by_cases hgf : g = f
      · subst hgf
        rw [hdf]
        show List.find? (fun c => c.name == g) (create_feature_matrix df rest)
          = none
        rw [List.find?_eq_none]
        intro x hx hpx
        rcases create_feature_matrix_mem hx with ⟨c₀, hfind, rfl⟩
        have hxn : (fillColumn c₀).name = g := by simpa using hpx
        rw [hxn] at hfind
        rw [hfind] at hdf
        cases hdf
      · have hgrest : g ∈ rest := by
          rcases List.mem_cons.mp hg with h | h
          · exact absurd h hgf
          · exact h
        exact ih hgrest

/-- The per-cell imputation map as the claim words it: a missing numeric
value becomes the column median among present values (0 if every value
is missing), a missing non-numeric value becomes 0, present values are
untouched. -/
def imputedDataSpec : ColData → ColData
  | .float vs => .float (vs.map (fun v => some (v.getD
      (if presentVals vs = [] then 0 else median (presentVals vs)))))
  | .obj vs => .obj (vs.map (fun v => some (v.getD (.onum 0))))

/-- The imputation loop body of the source computes exactly the per-cell
map of the claim. -/
theorem fillColData_eq_imputedDataSpec (d : ColData) :
    fillColData d = imputedDataSpec d := by
  cases d with
  | float vs => rw [fillColData_float_eq]; rfl
  | obj vs => rw [fillColData_obj_eq]; rfl

/-- C6: `create_feature_matrix` selects exactly the declared columns
present in the frame, in declared order (absent ones are skipped); the
result has no missing values; and each selected column is its source
column with every missing value replaced by the column median among
present values (0 when all are missing) for numeric columns and by 0
for non-numeric columns. -/
theorem create_feature_matrix_assembly (df : Frame) (fl : List String) :
    colNames (create_feature_matrix df fl)
      = fl.filter (fun f => decide (f ∈ colNames df)) ∧
    (∀ c ∈ create_feature_matrix df fl, noMissingData c.data = true) ∧
    (∀ c ∈ create_feature_matrix df fl, ∃ c₀ ∈ df,
      c₀.name = c.name ∧ c.data = imputedDataSpec c₀.data) := by
  refine ⟨?_, ?_, ?_⟩
  · induction fl with
    | nil => rfl
    | cons f rest ih =>
      cases hdf : df.find? (fun c => c.name == f) with
      | some c =>
        have hcn : c.name = f := by simpa using List.find?_some hdf
        have hmemdf : f ∈ colNames df := by
          refine List.mem_map.mpr ⟨c, List.mem_of_find?_eq_some hdf, hcn⟩
        have hexp : create_feature_matrix df (f :: rest)
            = fillColumn c :: create_feature_matrix df rest := by
          simp only [create_feature_matrix, List.filterMap_cons, hdf,
            List.map_cons]
        rw [hexp]
        show (fillColumn c).name :: colNames (create_feature_matrix df rest)
          = List.filter (fun f => decide (f ∈ colNames df)) (f :: rest)
        rw [List.filter_cons_of_pos (by simpa using hmemdf)]
        rw [show (fillColumn c).name = f from hcn ▸ rfl, ih]
      | none =>
        have hnomem : f ∉ colNames df := by
          intro hmem
          rcases List.mem_map.mp hmem with ⟨c, hcdf, hcn⟩
          have := List.find?_eq_none.mp hdf c hcdf
          simp [hcn] at this
        have hexp : create_feature_matrix df (f :: rest)
            = create_feature_matrix df rest := by
          simp only [create_feature_matrix, List.filterMap_cons, hdf]
        rw [hexp, List.filter_cons_of_neg (by simpa using hnomem)]
        exact ih
  · intro c hc
    rcases create_feature_matrix_mem hc with ⟨c₀, _, rfl⟩
    exact noMissingData_fillColData c₀.data
  · intro c hc
    rcases create_feature_matrix_mem hc with ⟨c₀, hfind, rfl⟩
    refine ⟨c₀, List.mem_of_find?_eq_some hfind, ?_, ?_⟩
    · rfl
    · exact fillColData_eq_imputedDataSpec c₀.data

/-- Witness for C6 on a concrete two-column frame with missing values
and a declared feature absent from the frame. -/
theorem create_feature_matrix_assembly_witness :
    colNames (create_feature_matrix
        [⟨"QualifyingTime (s)", .float [some 90, none, some 80]⟩,
         ⟨"Team", .obj [some (.ostr "McLaren"), none, some (.ostr "Ferrari")]⟩]
        ["QualifyingTime (s)", "SeasonPoints", "Team"])
      = List.filter
          (fun f => decide (f ∈ colNames
            [⟨"QualifyingTime (s)", .float [some 90, none, some 80]⟩,
             ⟨"Team", .obj [some (.ostr "McLaren"), none,
               some (.ostr "Ferrari")]⟩]))
          ["QualifyingTime (s)", "SeasonPoints", "Team"] ∧
    noMissingData (ColData.float [some 90, some 85, some 80]) = true := by
  have heval : create_feature_matrix
      [⟨"QualifyingTime (s)", .float [some 90, none, some 80]⟩,
       ⟨"Team", .obj [some (.ostr "McLaren"), none, some (.ostr "Ferrari")]⟩]
      ["QualifyingTime (s)", "SeasonPoints", "Team"]
      = [⟨"QualifyingTime (s)", .float [some 90, some 85, some 80]⟩,
         ⟨"Team", .obj [some (.ostr "McLaren"), some (.onum 0),
           some (.ostr "Ferrari")]⟩] := by
    have hsel : (["QualifyingTime (s)", "SeasonPoints", "Team"].filterMap
        (fun f => ([⟨"QualifyingTime (s)", .float [some 90, none, some 80]⟩,
          ⟨"Team", .obj [some (.ostr "McLaren"), none,
            some (.ostr "Ferrari")]⟩] : Frame).find? (fun c => c.name == f)))
        = [⟨"QualifyingTime (s)", .float [some 90, none, some 80]⟩,
           ⟨"Team", .obj [some (.ostr "McLaren"), none,
             some (.ostr "Ferrari")]⟩] := by decide
    have hfillq : fillColumn ⟨"QualifyingTime (s)",
        .float [some 90, none, some 80]⟩
        = ⟨"QualifyingTime (s)", .float [some 90, some 85, some 80]⟩ := by
      norm_num [fillColumn, fillColData, median, presentVals,
        List.insertionSort, List.orderedInsert]
    have hfillt : fillColumn ⟨"Team",
        .obj [some (.ostr "McLaren"), none, some (.ostr "Ferrari")]⟩
        = ⟨"Team", .obj [some (.ostr "McLaren"), some (.onum 0),
           some (.ostr "Ferrari")]⟩ := by decide
    rw [create_feature_matrix, hsel, List.map_cons, List.map_cons,
      List.map_nil, hfillq, hfillt]
  refine ⟨(create_feature_matrix_assembly
      [⟨"QualifyingTime (s)", .float [some 90, none, some 80]⟩,
       ⟨"Team", .obj [some (.ostr "McLaren"), none, some (.ostr "Ferrari")]⟩]
      ["QualifyingTime (s)", "SeasonPoints", "Team"]).1,
    (create_feature_matrix_assembly
      [⟨"QualifyingTime (s)", .float [some 90, none, some 80]⟩,
       ⟨"Team", .obj [some (.ostr "McLaren"), none, some (.ostr "Ferrari")]⟩]
      ["QualifyingTime (s)", "SeasonPoints", "Team"]).2.1
    ⟨"QualifyingTime (s)", .float [some 90, some 85, some 80]⟩ ?_⟩
  rw [heval]
  exact List.mem_cons_self _ _

/-- Imputation of a whole column is idempotent. -/
theorem fillColumn_idem (c : Column) :
    fillColumn (fillColumn c) = fillColumn c := by
  simp [fillColumn, fillColData_idem]

/-- C9: feature-matrix assembly is idempotent — applying
`create_feature_matrix` to its own output with the same feature list
returns that output unchanged. -/
theorem create_feature_matrix_idempotent (df : Frame) (fl : List String) :
    create_feature_matrix (create_feature_matrix df fl) fl
      = create_feature_matrix df fl := by
  have hcong : ∀ f ∈ fl,
      (create_feature_matrix df fl).find? (fun c => c.name == f)
        = (df.find? (fun c => c.name == f)).map fillColumn :=
    fun f hf => create_feature_matrix_find? df fl f hf
  calc create_feature_matrix (create_feature_matrix df fl) fl
      = (fl.filterMap
          (fun f => (create_feature_matrix df fl).find?
            (fun c => c.name == f))).map fillColumn := rfl
    _ = (fl.filterMap
          (fun f => (df.find? (fun c => c.name == f)).map
            fillColumn)).map fillColumn := by
        rw [List.filterMap_congr hcong]
    _ = (fl.filterMap (fun f => df.find? (fun c => c.name == f))).map
          (fillColumn ∘ fillColumn) := by
        simp only [List.map_filterMap, List.map_map, Option.map_map]
    _ = (fl.filterMap (fun f => df.find? (fun c => c.name == f))).map
          fillColumn := by
        refine List.map_congr_left ?_
        intro c _
        exact fillColumn_idem c
    _ = create_feature_matrix df fl := rfl

/-! ## Report formatting (`format_predictions_for_json`, `model/predict.py`) -/

/-- Python `x or y` on an optional string: `None` and the empty string
are falsy and give `y`. -/
def pyOrStr (a : Option String) (b : String) : String :=
  match a with
  | some s => if s = "" then b else s
  | none => b

/-- A row of `predictions_df` as read by `format_predictions_for_json`:
`DriverCode` (pipeline rows always carry it, so the
`row.get("DriverCode", row.get("Driver", "UNK"))` fallback collapses to
the code), the optional `QualifyingTime (s)` read with default 0.0, the
optional `Team`, and `PredictedRaceTime (s)`. -/
structure PredRow where
  driverCode : String
  qualifyingTimeS : Option ℚ
  team : Option String
  predictedTime : ℚ
deriving DecidableEq, Repr

/-- One entry of the serialized `predictions` array. -/
structure PredictionRecord where
  driver : String
  predicted_time : ℚ
  qualifying_time : ℚ
  team : String
deriving DecidableEq, Repr

/-- The `model_metadata` object of the serialized report. -/
structure ModelMetadata where
  mae : ℚ
  features_used : List String
  model_type : String
deriving DecidableEq, Repr

/-- The serialized prediction report. -/
structure PredictionReport where
  race : String
  year : ℤ
  predictions : List PredictionRecord
  model_metadata : ModelMetadata
deriving DecidableEq, Repr

/-- The sort key of `sort_values("PredictedRaceTime (s)")`. -/
def predRowLe (a b : PredRow) : Prop :=
  a.predictedTime ≤ b.predictedTime

instance : DecidableRel predRowLe :=
  fun a b => inferInstanceAs (Decidable (a.predictedTime ≤ b.predictedTime))

instance : IsTotal PredRow predRowLe :=
  ⟨fun a b => le_total a.predictedTime b.predictedTime⟩

instance : IsTrans PredRow predRowLe :=
  ⟨fun _ _ _ h h' => le_trans h h'⟩

/-- The body of the formatting loop of `format_predictions_for_json`
(lines 135-146): resolve the display name via `get_driver_name` with
the raw code as fallback, take `predicted_time` from the prediction,
`qualifying_time` from the `QualifyingTime (s)` column (default 0.0),
and the team from the row with `get_team` and `"Unknown"` as
fallbacks. -/
def toPredictionRecord (r : PredRow) : PredictionRecord :=
  ⟨pyOrStr (get_driver_name r.driverCode) r.driverCode,
   r.predictedTime,
   r.qualifyingTimeS.getD 0,
   pyOrStr r.team (pyOrStr (get_team r.driverCode) "Unknown")⟩

/-- `format_predictions_for_json` of `model/predict.py` (lines 109-159):
sort the rows ascending by predicted race time (embedded as a stable
insertion sort; for the tied two-row inputs considered below,
the argsort of `sort_values` likewise keeps the input order), then build the
report. -/
def format_predictions_for_json (rows : List PredRow) (race_name : String)
    (year : ℤ) (mae : ℚ) (features_used : List String)
    (model_type : String := "GradientBoostingRegressor") : PredictionReport :=
  ⟨race_name, year,
   (List.insertionSort predRowLe rows).map toPredictionRecord,
   ⟨mae, features_used, model_type⟩⟩

/-- C3 as stated is false: the counterexample shows (a) the empty
predictions DataFrame serializes to an empty predictions list, and
(b) two rows tied on predicted time come out in input order, so two
permutations of the same rows give different serialized orders. -/
theorem format_predictions_not_order_invariant :
    (format_predictions_for_json [] "Race" 2025 1 []).predictions = [] ∧
    ([(⟨"AAA", some 90, some "T1", 100⟩ : PredRow),
      ⟨"BBB", some 90, some "T2", 100⟩].Perm
      [⟨"BBB", some 90, some "T2", 100⟩, ⟨"AAA", some 90, some "T1", 100⟩]) ∧
    (format_predictions_for_json
        [⟨"AAA", some 90, some "T1", 100⟩, ⟨"BBB", some 90, some "T2", 100⟩]
        "Race" 2025 1 []).predictions
      ≠ (format_predictions_for_json
        [⟨"BBB", some 90, some "T2", 100⟩, ⟨"AAA", some 90, some "T1", 100⟩]
        "Race" 2025 1 []).predictions := by
  refine ⟨rfl, ?_, ?_⟩
  · decide
  · decide

/-- C3 amended: for every non-empty input the predictions list is
non-empty; it is always sorted ascending by predicted time; and the
serialized sequence of predicted times is the same for every
permutation of the input rows (the full records need not be, when two
rows tie on predicted time). -/
theorem format_predictions_sorted (rows : List PredRow) (race_name : String)
    (year : ℤ) (mae : ℚ) (fu : List String) :
    (rows ≠ [] →
      (format_predictions_for_json rows race_name year mae fu).predictions
        ≠ []) ∧
    List.Sorted (fun a b : PredictionRecord =>
        a.predicted_time ≤ b.predicted_time)
      (format_predictions_for_json rows race_name year mae fu).predictions ∧
    (∀ rows2, rows.Perm rows2 →
      (format_predictions_for_json rows race_name year mae
          fu).predictions.map (·.predicted_time)
        = (format_predictions_for_json rows2 race_name year mae
          fu).predictions.map (·.predicted_time)) := by
  refine ⟨?_, ?_, ?_⟩
  · intro hne hmap
    have hsortnil : List.insertionSort predRowLe rows = [] :=
      List.map_eq_nil_iff.mp hmap
    have : rows = [] := by
      have hperm := List.perm_insertionSort predRowLe rows
      rw [hsortnil] at hperm
      exact (List.Perm.nil_eq hperm).symm
    exact hne this
  · have hs : List.Sorted predRowLe (List.insertionSort predRowLe rows) :=
      List.sorted_insertionSort predRowLe rows
    exact hs.map toPredictionRecord (fun a b h => h)
  · intro rows2 hperm
    have key : ∀ l : List PredRow,
        ((List.insertionSort predRowLe l).map toPredictionRecord).map
            (fun p => p.predicted_time)
          = (List.insertionSort predRowLe l).map (fun r => r.predictedTime) := by
      intro l
      rw [List.map_map]
      rfl
    show ((List.insertionSort predRowLe rows).map toPredictionRecord).map
        (fun p => p.predicted_time)
      = ((List.insertionSort predRowLe rows2).map toPredictionRecord).map
        (fun p => p.predicted_time)
    rw [key, key]
    have hp : ((List.insertionSort predRowLe rows).map
        (fun r => r.predictedTime)).Perm
        ((List.insertionSort predRowLe rows2).map (fun r => r.predictedTime)) :=
      ((((List.perm_insertionSort predRowLe rows).trans hperm).trans
        (List.perm_insertionSort predRowLe rows2).symm).map
        (fun r => r.predictedTime))
    have hs1 : ((List.insertionSort predRowLe rows).map
        (fun r => r.predictedTime)).Sorted (· ≤ ·) :=
      (List.sorted_insertionSort predRowLe rows).map
        (fun r : PredRow => r.predictedTime) (fun a b h => h)
    have hs2 : ((List.insertionSort predRowLe rows2).map
        (fun r => r.predictedTime)).Sorted (· ≤ ·) :=
      (List.sorted_insertionSort predRowLe rows2).map
        (fun r : PredRow => r.predictedTime) (fun a b h => h)
    exact List.eq_of_perm_of_sorted hp hs1 hs2

/-- Witness for (amended) C3 on two concrete rows and their swap. -/
theorem format_predictions_sorted_witness :
    (format_predictions_for_json
        [⟨"VER", some 88, none, 101⟩, ⟨"HAM", some 89, none, 99⟩]
        "Race" 2025 1 []).predictions ≠ [] ∧
    List.Sorted (fun a b : PredictionRecord =>
        a.predicted_time ≤ b.predicted_time)
      (format_predictions_for_json
        [⟨"VER", some 88, none, 101⟩, ⟨"HAM", some 89, none, 99⟩]
        "Race" 2025 1 []).predictions ∧
    (format_predictions_for_json
        [⟨"VER", some 88, none, 101⟩, ⟨"HAM", some 89, none, 99⟩]
        "Race" 2025 1 []).predictions.map (·.predicted_time)
      = (format_predictions_for_json
        [⟨"HAM", some 89, none, 99⟩, ⟨"VER", some 88, none, 101⟩]
        "Race" 2025 1 []).predictions.map (·.predicted_time) :=
  ⟨(format_predictions_sorted
      [⟨"VER", some 88, none, 101⟩, ⟨"HAM", some 89, none, 99⟩]
      "Race" 2025 1 []).1 (by decide),
   (format_predictions_sorted
      [⟨"VER", some 88, none, 101⟩, ⟨"HAM", some 89, none, 99⟩]
      "Race" 2025 1 []).2.1,
   (format_predictions_sorted
      [⟨"VER", some 88, none, 101⟩, ⟨"HAM", some 89, none, 99⟩]
      "Race" 2025 1 []).2.2
    [⟨"HAM", some 89, none, 99⟩, ⟨"VER", some 88, none, 101⟩] (by decide)⟩

/-! ## Schema validation and persistence (`model/predict.py`) -/

/-- One raw prediction entry as a dict: `none` models an absent key
(`key not in pred`). -/
structure RawPrediction where
  driver : Option String
  predicted_time : Option ℚ
  qualifying_time : Option ℚ
  team : Option String
deriving DecidableEq, Repr

/-- The raw report dict passed to `validate_prediction_schema`: `none`
models an absent top-level key. The `isinstance` checks on
`predictions` (list) and `model_metadata` (dict) hold by typing in this
embedding. -/
structure RawReport where
  race : Option String
  year : Option ℤ
  predictions : Option (List RawPrediction)
  model_metadata : Option ModelMetadata
deriving DecidableEq, Repr

/-- The entry loop of `validate_prediction_schema` (lines 52-56):
check `driver`, `predicted_time`, `qualifying_time`, `team` in order,
with the enumerate index in the message. -/
def checkPredictionEntries : Nat → List RawPrediction → Except String Bool
  | _, [] => .ok true
  | i, p :: rest =>
    if p.driver.isNone then
      .error ("Prediction " ++ toString i ++ " missing required key: driver")
    else if p.predicted_time.isNone then
      .error ("Prediction " ++ toString i
        ++ " missing required key: predicted_time")
    else if p.qualifying_time.isNone then
      .error ("Prediction " ++ toString i
        ++ " missing required key: qualifying_time")
    else if p.team.isNone then
      .error ("Prediction " ++ toString i ++ " missing required key: team")
    else checkPredictionEntries (i + 1) rest

/-- `validate_prediction_schema` of `model/predict.py` (lines 30-58):
required top-level keys in order, then the per-entry check; a raised
`ValueError` is the `.error` case, and `return True` in the source is
`.ok` case. -/
def validate_prediction_schema (d : RawReport) : Except String Bool :=
  if d.race.isNone then .error "Missing required key: race"
  else if d.year.isNone then .error "Missing required key: year"
  else if d.predictions.isNone then .error "Missing required key: predictions"
  else if d.model_metadata.isNone then
    .error "Missing required key: model_metadata"
  else checkPredictionEntries 0 (d.predictions.getD [])

/-- `save_predictions_json` of `model/predict.py` (lines 162-184) over a
file system modeled as path-to-report pairs: validation runs first, and
only the `.ok` case reaches the write (`json.dump`), which adds the
file; a validation error propagates and the file system is returned in
no form — nothing is persisted. -/
def save_predictions_json (d : RawReport) (output_path : String)
    (fs : List (String × RawReport)) :
    Except String (List (String × RawReport)) :=
  match validate_prediction_schema d with
  | .error e => .error e
  | .ok _ => .ok ((output_path, d) :: fs)

/-- A prediction entry with one of the four required keys absent. -/
def rawPredictionMissingKey (p : RawPrediction) : Prop :=
  p.driver.isNone = true ∨ p.predicted_time.isNone = true ∨
  p.qualifying_time.isNone = true ∨ p.team.isNone = true

instance : DecidablePred rawPredictionMissingKey := fun p => by
  unfold rawPredictionMissingKey
  infer_instance

/-- The entry loop errors as soon as some entry misses a required key. -/
theorem checkPredictionEntries_error (l : List RawPrediction) :
    ∀ i : Nat, (∃ p ∈ l, rawPredictionMissingKey p) →
    ∃ msg, checkPredictionEntries i l = .error msg := by
  induction l with
  | nil =>
    rintro i ⟨p, hp, _⟩
    cases hp
  | cons q rest ih =>
    rintro i ⟨p, hp, hmiss⟩
    by_cases hq : rawPredictionMissingKey q
    · rcases hd : q.driver.isNone with _ | _
      · rcases hpt : q.predicted_time.isNone with _ | _
        · rcases hqt : q.qualifying_time.isNone with _ | _
          · rcases ht : q.team.isNone with _ | _
            · exfalso
              rcases hq with h | h | h | h <;> simp_all
            · exact ⟨"Prediction " ++ toString i
                  ++ " missing required key: team",
                by simp [checkPredictionEntries, hd, hpt, hqt, ht]⟩
          · exact ⟨"Prediction " ++ toString i
                ++ " missing required key: qualifying_time",
              by simp [checkPredictionEntries, hd, hpt, hqt]⟩
        · exact ⟨"Prediction " ++ toString i
              ++ " missing required key: predicted_time",
            by simp [checkPredictionEntries, hd, hpt]⟩
      · exact ⟨"Prediction " ++ toString i ++ " missing required key: driver",
          by simp [checkPredictionEntries, hd]⟩
    · have hprest : p ∈ rest := by
        rcases List.mem_cons.mp hp with rfl | h
        · exact absurd hmiss hq
        · exact h
      rcases ih (i + 1) ⟨p, hprest, hmiss⟩ with ⟨msg, hmsg⟩
      refine ⟨msg, ?_⟩
      have hqd : q.driver.isNone = false := by
        rcases h : q.driver.isNone with _ | _
        · rfl
        · exact absurd (Or.inl h) hq
      have hqpt : q.predicted_time.isNone = false := by
        rcases h : q.predicted_time.isNone with _ | _
        · rfl
        · exact absurd (Or.inr (Or.inl h)) hq
      have hqqt : q.qualifying_time.isNone = false := by
        rcases h : q.qualifying_time.isNone with _ | _
        · rfl
        · exact absurd (Or.inr (Or.inr (Or.inl h))) hq
      have hqt : q.team.isNone = false := by
        rcases h : q.team.isNone with _ | _
        · rfl
        · exact absurd (Or.inr (Or.inr (Or.inr h))) hq
      simpa [checkPredictionEntries, hqd, hqpt, hqqt, hqt] using hmsg

/-- C4: `save_predictions_json` raises (returns `.error`) and persists
nothing whenever a required top-level key is absent or some prediction
entry misses a required key; in this embedding an `.error` result
carries no file system, so no write occurs. -/
theorem save_predictions_json_validates (d : RawReport) (path : String)
    (fs : List (String × RawReport))
    (h : d.race.isNone = true ∨ d.year.isNone = true ∨
      d.predictions.isNone = true ∨ d.model_metadata.isNone = true ∨
      (∃ l, d.predictions = some l ∧ ∃ p ∈ l, rawPredictionMissingKey p)) :
    (∃ msg, save_predictions_json d path fs = .error msg) ∧
    (save_predictions_json d path fs).isOk = false := by
  have herr : ∃ msg, validate_prediction_schema d = .error msg := by
    rcases hr : d.race.isNone with _ | _
    · rcases hy : d.year.isNone with _ | _
      · rcases hps : d.predictions.isNone with _ | _
        · rcases hm : d.model_metadata.isNone with _ | _
          · rcases h with h | h | h | h | h
            · rw [hr] at h; cases h
            · rw [hy] at h; cases h
            · rw [hps] at h; cases h
            · rw [hm] at h; cases h
            · rcases h with ⟨l, hl, hmem⟩
              rcases checkPredictionEntries_error l 0 hmem with ⟨msg, hmsg⟩
              refine ⟨msg, ?_⟩
              simp [validate_prediction_schema, hr, hy, hps, hm, hl]
              exact hmsg
          · exact ⟨"Missing required key: model_metadata",
              by simp [validate_prediction_schema, hr, hy, hps, hm]⟩
        · exact ⟨"Missing required key: predictions",
            by simp [validate_prediction_schema, hr, hy, hps]⟩
      · exact ⟨"Missing required key: year",
          by simp [validate_prediction_schema, hr, hy]⟩
    · exact ⟨"Missing required key: race",
        by simp [validate_prediction_schema, hr]⟩
  rcases herr with ⟨msg, hmsg⟩
  refine ⟨⟨msg, ?_⟩, ?_⟩
  · simp [save_predictions_json, hmsg]
  · simp [save_predictions_json, hmsg, Except.isOk, Except.toBool]

/-- Witness for C4: a report missing only `model_metadata` is rejected
and nothing is written. -/
theorem save_predictions_json_validates_witness :
    (save_predictions_json
      ⟨some "Chinese Grand Prix", some 2025,
       some [⟨some "Max Verstappen", some 95, some 90, some "Red Bull"⟩],
       none⟩
      "predictions/china.json" []).isOk = false :=
  (save_predictions_json_validates
    ⟨some "Chinese Grand Prix", some 2025,
     some [⟨some "Max Verstappen", some 95, some 90, some "Red Bull"⟩],
     none⟩
    "predictions/china.json" []
    (Or.inr (Or.inr (Or.inr (Or.inl rfl))))).2

/-! ## Pipeline steps of `run_prediction.py` -/

/-- A row of `qualifying_2025` as used by the training filter and the
report: its driver code, its `QualifyingTime (s)`, and its team. -/
structure PipelineRow where
  driverCode : String
  qualifyingTimeS : ℚ
  team : Option String
deriving DecidableEq, Repr

/-- Lines 170-172 of `run_prediction.py`:
`valid_drivers = qualifying_2025["DriverCode"].isin(avg_lap_times.index)`
followed by `qualifying_2025 = qualifying_2025[valid_drivers]`; the
average lap times Series is its (code, mean lap time) pairs. -/
def filterToTrainingDrivers (rows : List PipelineRow)
    (avg_lap_times : List (String × ℚ)) : List PipelineRow :=
  rows.filter (fun r => avg_lap_times.any (fun kv => kv.1 == r.driverCode))

/-- A pandas row label: an integer position of a default RangeIndex or
a string of a code-labeled index. Label lookup compares across both
kinds and never matches across kinds, as in pandas. -/
inductive PdLabel where
  | intLabel (n : ℕ)
  | strLabel (s : String)
deriving DecidableEq, Repr

/-- A frame (or Series) carrying the default integer index: one
(position, row) pair per row, as produced by the `merge` at line 168 of
`run_prediction.py`, which resets the index to 0..n-1. -/
def integerIndexed {α : Type} (l : List α) : List (PdLabel × α) :=
  l.enum.map (fun q => (PdLabel.intLabel q.1, q.2))

/-- Lines 170-172 on the labeled frame: the boolean mask keeps each
retained row under its original integer label. The row payloads are
exactly `filterToTrainingDrivers` (proved below). -/
def mergedAndFiltered (rows : List PipelineRow)
    (avg_lap_times : List (String × ℚ)) : List (PdLabel × PipelineRow) :=
  (integerIndexed rows).filter
    (fun p => avg_lap_times.any (fun kv => kv.1 == p.2.driverCode))

/-- `avg_lap_times.reindex(qualifying_2025["DriverCode"]).dropna()`
(line 184): one output entry per requested code, labeled by the CODE
STRING, holding that code's mean lap time; a code absent from the
Series gets NaN and is dropped by `dropna` (present codes hold actual
numbers, never NaN). -/
def reindexDropna (avg_lap_times : List (String × ℚ)) (codes : List String) :
    List (PdLabel × ℚ) :=
  codes.filterMap (fun c =>
    (avg_lap_times.find? (fun kv => kv.1 == c)).map
      (fun kv => (PdLabel.strLabel c, kv.2)))

/-- `.loc[labels]` on a labeled frame: the rows under the requested
labels in request order; pandas raises `KeyError` when any requested
label is absent from the index. -/
def locSelect {α : Type} (rows : List (PdLabel × α)) (labels : List PdLabel) :
    Except String (List (PdLabel × α)) :=
  if labels.all (fun lb => rows.any (fun p => p.1 == lb)) then
    .ok (labels.filterMap (fun lb => rows.find? (fun p => p.1 == lb)))
  else
    .error "KeyError: None of the requested labels are in the index"

/-- Lines 168-229 of `run_prediction.py` from the merge on, with the
fitted regressor abstracted as a per-row prediction function and the
feature matrix `X` modeled by its labeled rows (its feature columns are
irrelevant here; what is load-bearing is that `create_feature_matrix`
keeps the integer row labels of `qualifying_2025`): the merge resets
the index, the filter keeps integer labels, line 174 exits on zero
rows, line 184 builds `y` labeled by code strings, line 185 runs
`X.loc[y.index]` — which raises `KeyError` whenever `y` is non-empty,
because code-string labels are looked up in an integer index — line 186
keeps the qualifying rows whose code value appears in `y.index`, line
188 exits on an empty matrix, and lines 195-221 train, predict and
serialize the report. -/
def mainPredictionSegment (rows : List PipelineRow)
    (avg_lap_times : List (String × ℚ)) (predict : PipelineRow → ℚ)
    (race_name : String) (year : ℤ) (mae : ℚ) (features_used : List String) :
    Except String PredictionReport :=
  let qualifying := mergedAndFiltered rows avg_lap_times
  if qualifying.isEmpty then
    .error "No valid drivers found after merging with training data"
  else
    let y := reindexDropna avg_lap_times
      (qualifying.map (fun p => p.2.driverCode))
    match locSelect qualifying (y.map Prod.fst) with
    | .error e => .error e
    | .ok Xsel =>
      if Xsel.isEmpty then
        .error "No matching drivers between qualifying and training data"
      else
        .ok (format_predictions_for_json
          ((qualifying.filter (fun p => (y.map Prod.fst).any
              (fun lb => lb == PdLabel.strLabel p.2.driverCode))).map
            (fun p => ⟨p.2.driverCode, some p.2.qualifyingTimeS, p.2.team,
              predict p.2⟩))
          race_name year mae features_used)

theorem filter_snd_map_snd {α β : Type} (l : List (α × β)) (g : β → Bool) :
    (l.filter (fun p => g p.2)).map Prod.snd = (l.map Prod.snd).filter g := by
  induction l with
  | nil => rfl
  | cons p rest ih =>
    rcases hg : g p.2 with _ | _
    · simp [List.filter_cons, hg, ih]
    · simp [List.filter_cons, hg, ih]

theorem integerIndexed_map_snd {α : Type} (l : List α) :
    (integerIndexed l).map Prod.snd = l := by
  have h : (integerIndexed l).map Prod.snd = l.enum.map Prod.snd := by
    rw [integerIndexed, List.map_map]
    rfl
  rw [h, List.enum_map_snd]

/-- C5 as stated is false: with drivers NOR and XXX sharing qualifying
time 90 and only NOR in the historical averages, the filter keeps only
NOR (the training set), and the run then aborts — `X.loc[y.index]`
looks the code-string label "NOR" up in the integer row index and
raises `KeyError` — so no prediction report is produced at all: "XXX"
appears in none, and neither does "NOR". -/
theorem pipeline_excludes_unhistoried_driver :
    filterToTrainingDrivers
        [⟨"NOR", 90, none⟩, ⟨"XXX", 90, none⟩] [("NOR", 95)]
      = [⟨"NOR", 90, none⟩] ∧
    mainPredictionSegment [⟨"NOR", 90, none⟩, ⟨"XXX", 90, none⟩]
        [("NOR", 95)] (fun _ => 100) "Race" 2025 1 []
      = .error "KeyError: None of the requested labels are in the index" := by
  constructor
  · decide
  · rfl

/-- C5 amended: the training filter retains exactly the rows whose
driver code has a historical average lap time (and those are the rows
the prediction segment carries forward); but the segment never returns
a report: with no retained driver it exits at line 174, and with any
retained driver line 185 looks the code-string labels of `y` up in the
integer row index and raises `KeyError` — so a driver absent from
history never appears in a report, and neither does anyone else. -/
theorem pipeline_training_filter (rows : List PipelineRow)
    (avg_lap_times : List (String × ℚ)) (predict : PipelineRow → ℚ)
    (race_name : String) (year : ℤ) (mae : ℚ) (fu : List String) :
    (mergedAndFiltered rows avg_lap_times).map Prod.snd
      = filterToTrainingDrivers rows avg_lap_times ∧
    (∀ r ∈ filterToTrainingDrivers rows avg_lap_times,
      ∃ kv ∈ avg_lap_times, kv.1 = r.driverCode) ∧
    (∀ r ∈ rows,
      avg_lap_times.any (fun kv => kv.1 == r.driverCode) = true →
      r ∈ filterToTrainingDrivers rows avg_lap_times) ∧
    (mainPredictionSegment rows avg_lap_times predict race_name year mae
        fu).isOk = false := by
  refine ⟨?_, ?_, ?_, ?_⟩
  · exact (filter_snd_map_snd (integerIndexed rows)
      (fun r => avg_lap_times.any (fun kv => kv.1 == r.driverCode))).trans
      (by rw [integerIndexed_map_snd]; rfl)
  · intro r hr
    have hany := List.of_mem_filter hr
    rcases List.any_eq_true.mp hany with ⟨kv, hkv, hbeq⟩
    exact ⟨kv, hkv, by simpa using hbeq⟩
  · intro r hr hany
    exact List.mem_filter.mpr ⟨hr, hany⟩
  · by_cases hemp : (mergedAndFiltered rows avg_lap_times).isEmpty = true
    · simp [mainPredictionSegment, hemp, Except.isOk, Except.toBool]
    · have hne : (mergedAndFiltered rows avg_lap_times).isEmpty = false := by
        rcases h : (mergedAndFiltered rows avg_lap_times).isEmpty with _ | _
        · rfl
        · exact absurd h hemp
      obtain ⟨p, hp⟩ : ∃ p, p ∈ mergedAndFiltered rows avg_lap_times := by
        rcases h : mergedAndFiltered rows avg_lap_times with _ | ⟨a, l⟩
        · rw [h] at hne
          simp [List.isEmpty] at hne
        · exact ⟨a, h ▸ List.mem_cons_self a l⟩
      have hp2 : p ∈ (integerIndexed rows).filter
          (fun q => avg_lap_times.any (fun kv => kv.1 == q.2.driverCode)) := hp
      have hPp : avg_lap_times.any (fun kv => kv.1 == p.2.driverCode) = true := by
        have h := List.of_mem_filter hp2
        exact h
      have hfindS :
          (avg_lap_times.find? (fun kv => kv.1 == p.2.driverCode)).isSome :=
        List.find?_isSome.mpr (List.any_eq_true.mp hPp)
      obtain ⟨kv0, hkv0⟩ := Option.isSome_iff_exists.mp hfindS
      have hcmem : p.2.driverCode ∈
          (mergedAndFiltered rows avg_lap_times).map
            (fun q => q.2.driverCode) :=
        List.mem_map.mpr ⟨p, hp, rfl⟩
      have hymem : (PdLabel.strLabel p.2.driverCode, kv0.2) ∈
          reindexDropna avg_lap_times
            ((mergedAndFiltered rows avg_lap_times).map
              (fun q => q.2.driverCode)) := by
        refine List.mem_filterMap.mpr ⟨p.2.driverCode, hcmem, ?_⟩
        show (avg_lap_times.find? (fun kv => kv.1 == p.2.driverCode)).map
            (fun kv => (PdLabel.strLabel p.2.driverCode, kv.2))
          = some (PdLabel.strLabel p.2.driverCode, kv0.2)
        rw [hkv0]
        rfl
      have hlb : PdLabel.strLabel p.2.driverCode ∈
          (reindexDropna avg_lap_times
            ((mergedAndFiltered rows avg_lap_times).map
              (fun q => q.2.driverCode))).map Prod.fst :=
        List.mem_map.mpr ⟨_, hymem, rfl⟩
      have hnoX : ∀ q ∈ mergedAndFiltered rows avg_lap_times,
          (q.1 == PdLabel.strLabel p.2.driverCode) = false := by
        intro q hq2
        have hq3 : q ∈ integerIndexed rows := List.mem_of_mem_filter hq2
        rcases List.mem_map.mp hq3 with ⟨e, _, rfl⟩
        rw [beq_eq_false_iff_ne]
        simp
      have hallfalse : ((reindexDropna avg_lap_times
            ((mergedAndFiltered rows avg_lap_times).map
              (fun q => q.2.driverCode))).map Prod.fst).all
          (fun lb => (mergedAndFiltered rows avg_lap_times).any
            (fun q => q.1 == lb)) = false := by
        rcases hall : ((reindexDropna avg_lap_times
            ((mergedAndFiltered rows avg_lap_times).map
              (fun q => q.2.driverCode))).map Prod.fst).all
            (fun lb => (mergedAndFiltered rows avg_lap_times).any
              (fun q => q.1 == lb)) with _ | _
        · exact hall
        · exfalso
          have h1 := List.all_eq_true.mp hall _ hlb
          rcases List.any_eq_true.mp h1 with ⟨q, hqm, hqb⟩
          rw [hnoX q hqm] at hqb
          cases hqb
      have hloc : locSelect (mergedAndFiltered rows avg_lap_times)
          ((reindexDropna avg_lap_times
            ((mergedAndFiltered rows avg_lap_times).map
              (fun q => q.2.driverCode))).map Prod.fst)
          = Except.error
            "KeyError: None of the requested labels are in the index" := by
        simp [locSelect, hallfalse]
      simp [mainPredictionSegment, hne, hloc, Except.isOk, Except.toBool]

/-- Witness for (amended) C5 at the concrete two-driver input: the
segment returns no report. -/
theorem pipeline_training_filter_witness :
    (mainPredictionSegment [⟨"NOR", 90, none⟩, ⟨"XXX", 90, none⟩]
        [("NOR", 95)] (fun _ => 100) "Race" 2025 1 []).isOk = false :=
  (pipeline_training_filter [⟨"NOR", 90, none⟩, ⟨"XXX", 90, none⟩]
    [("NOR", 95)] (fun _ => 100) "Race" 2025 1 []).2.2.2

/-- A row of `qualifying_2025` entering the weather-adjustment step of
`run_prediction.py` (lines 154-165): `QualifyingTime (s)` and the
per-driver wet-performance factor. -/
structure WeatherRow where
  driverCode : String
  qualifyingTimeS : ℚ
  wetPerformanceFactor : ℚ
deriving DecidableEq, Repr

/-- A row after that step: the adjusted value is written to a NEW
column named `QualifyingTime` (no " (s)"), while `QualifyingTime (s)`
keeps the raw time. -/
structure WeatherAdjRow where
  driverCode : String
  qualifyingTimeS : ℚ
  wetPerformanceFactor : ℚ
  qualifyingTime : ℚ
deriving DecidableEq, Repr

/-- Lines 154-165 of `run_prediction.py`: when the rain probability is
at least 0.75, `qualifying_2025["QualifyingTime"]` is assigned the
per-row `adjust_qualifying_time_for_weather` result; otherwise it is
assigned the unchanged `QualifyingTime (s)` column. -/
def applyWeatherAdjustment (rain_prob : ℚ) (rows : List WeatherRow) :
    List WeatherAdjRow :=
  if rain_prob ≥ 0.75 then
    rows.map (fun r =>
      ⟨r.driverCode, r.qualifyingTimeS, r.wetPerformanceFactor,
       adjust_qualifying_time_for_weather r.qualifyingTimeS rain_prob
         r.wetPerformanceFactor⟩)
  else
    rows.map (fun r =>
      ⟨r.driverCode, r.qualifyingTimeS, r.wetPerformanceFactor,
       r.qualifyingTimeS⟩)

/-- The two qualifying-time columns of `qualifying_2025` after the
weather step, as a frame for `create_feature_matrix`. -/
def weatherRowsFrame (rows : List WeatherAdjRow) : Frame :=
  [⟨"QualifyingTime (s)", .float (rows.map (fun r => some r.qualifyingTimeS))⟩,
   ⟨"QualifyingTime", .float (rows.map (fun r => some r.qualifyingTime))⟩]

/-- How such a row reaches `format_predictions_for_json`: the report
reads `QualifyingTime (s)` — not the adjusted `QualifyingTime`
column — for the serialized `qualifying_time`. -/
def weatherAdjRowToPredRow (predict : WeatherAdjRow → ℚ)
    (r : WeatherAdjRow) : PredRow :=
  ⟨r.driverCode, some r.qualifyingTimeS, none, predict r⟩

/-- C2 evaluated at the failing input (rain probability 0.8 ≥ 0.75, one
driver with qualifying time 90 and wet factor 0.975196): the adjusted
value 87.76764 is computed into the new `QualifyingTime` column, but
the feature matrix built over `QualifyingTime (s)` and the serialized
`qualifying_time` both still hold the raw 90 — the adjusted value never
replaces the qualifying time carried downstream. -/
theorem weather_adjustment_dead_column :
    applyWeatherAdjustment 0.8 [⟨"VER", 90, 0.975196⟩]
      = [⟨"VER", 90, 0.975196, 87.76764⟩] ∧
    create_feature_matrix
        (weatherRowsFrame [⟨"VER", 90, 0.975196, 87.76764⟩])
        ["QualifyingTime (s)"]
      = [⟨"QualifyingTime (s)", .float [some 90]⟩] ∧
    (format_predictions_for_json
        ([(⟨"VER", 90, 0.975196, 87.76764⟩ : WeatherAdjRow)].map
          (weatherAdjRowToPredRow (fun _ => 95)))
        "Race" 2025 1 []).predictions.map (·.qualifying_time) = [90] ∧
    (90 : ℚ) ≠ 87.76764 := by
  refine ⟨?_, ?_, ?_, by norm_num⟩
  · norm_num [applyWeatherAdjustment, adjust_qualifying_time_for_weather]
  · have hsel : (["QualifyingTime (s)"].filterMap
        (fun f => (weatherRowsFrame
          [⟨"VER", 90, 0.975196, 87.76764⟩]).find? (fun c => c.name == f)))
        = [⟨"QualifyingTime (s)", .float [some 90]⟩] := by
      simp [weatherRowsFrame]
    have hfill : fillColumn ⟨"QualifyingTime (s)", .float [some 90]⟩
        = ⟨"QualifyingTime (s)", .float [some 90]⟩ := by
      simp [fillColumn, fillColData]
    rw [create_feature_matrix, hsel, List.map_cons, List.map_nil, hfill]
  · simp [format_predictions_for_json, weatherAdjRowToPredRow,
      toPredictionRecord]
